import Mathlib

/-!
# Verification of the abide-demo repository

Shallow embedding of the abide-demo Python sources
(`modules/feature_extraction.py`, `modules/evaluation.py`,
`modules/modeling.py`) and proofs about them.

Conventions of the embedding:

* pandas cell values become the inductive type `PyVal` (integers,
  rational numbers standing for floats, strings, and `nan` for missing
  values); a DataFrame becomes an association list from column name to
  column values;
* numpy float arrays become lists of rationals, so every arithmetic
  identity of the source is exact;
* Python exceptions become `Except String` results;
* dictionary lookups with `.get` become `Option`-valued total functions,
  while `d[k]` accesses that can fail become `Except` errors;
* the internal numerics of the external statistical estimators
  (nilearn's covariance/correlation machinery) are explicitly declared a
  non-goal by the repository's own documentation, so the per-kind group
  connectivity estimation is abstracted as a function parameter `est`
  satisfying nilearn's documented shape contract (one `n × n` matrix per
  subject); everything the repository itself computes — the order of the
  stages, the vectorize/discard-diagonal flags, the vectorization of a
  symmetric matrix — is embedded concretely.
-/

/-- A pandas/numpy scalar cell value: an integer, a float (represented
exactly as a rational), a string, or a missing value (`NaN`/`None`). -/
inductive PyVal where
  | int (i : ℤ)
  | num (q : ℚ)
  | str (s : String)
  | nan
  deriving DecidableEq, Repr

/-- A DataFrame, embedded as an association list from column name to the
list of that column's cell values (one entry per row). -/
abbrev Table := List (String × List PyVal)

/-- Column read, `data[k]`: the first column named `k` (empty if absent). -/
def getCol : Table → String → List PyVal
  | [], _ => []
  | (k', v') :: rest, k => if k' = k then v' else getCol rest k

/-- Column write, `data[k] = v`: replace the first column named `k`
in place, or append a new column when `k` is absent (pandas semantics
of assigning to a column). -/
def setCol : Table → String → List PyVal → Table
  | [], k, v => [(k, v)]
  | (k', v') :: rest, k, v =>
      if k' = k then (k, v) :: rest else (k', v') :: setCol rest k v

/-- Equality test used by a Python dict lookup on the keys appearing in
this repository's mapping tables: numeric values compare by value
(`1 == 1.0`), strings by content, and `NaN` matches the `np.nan` key
(pandas hash tables treat all NaNs as equal, which is what makes the
`np.nan: "LEFT"` entry of the source's handedness table effective). -/
def pyKeyEq : PyVal → PyVal → Bool
  | .int a, .int b => a == b
  | .num a, .num b => a == b
  | .int a, .num b => (a : ℚ) == b
  | .num a, .int b => a == (b : ℚ)
  | .str a, .str b => a == b
  | .nan, .nan => true
  | _, _ => false

/-- Semantics of `pandas.Series.map(d)` applied to one cell: the value mapped by the
first matching key of `d`, and missing (`NaN`) when no key matches. -/
def seriesMap (d : List (PyVal × PyVal)) (v : PyVal) : PyVal :=
  match d.find? (fun kv => pyKeyEq kv.fst v) with
  | some kv => kv.snd
  | none => .nan

/-- Table `MAPPING["SEX"]` from `feature_extraction.py`. -/
def MAPPING_SEX : List (PyVal × PyVal) :=
  [(.int 1, .str "MALE"), (.int 2, .str "FEMALE")]

/-- Table `MAPPING["HANDEDNESS_CATEGORY"]` from `feature_extraction.py`. -/
def MAPPING_HANDEDNESS : List (PyVal × PyVal) :=
  [(.str "L", .str "LEFT"),
   (.str "R", .str "RIGHT"),
   (.str "Mixed", .str "AMBIDEXTROUS"),
   (.str "Ambi", .str "AMBIDEXTROUS"),
   (.str "L->R", .str "AMBIDEXTROUS"),
   (.str "R->L", .str "AMBIDEXTROUS"),
   (.str "-9999", .str "LEFT"),
   (.nan, .str "LEFT")]

/-- Table `MAPPING["EYE_STATUS_AT_SCAN"]` from `feature_extraction.py`. -/
def MAPPING_EYE : List (PyVal × PyVal) :=
  [(.int 1, .str "OPEN"), (.int 2, .str "CLOSED")]

/-- Table `MAPPING["DX_GROUP"]` from `feature_extraction.py`. -/
def MAPPING_DX : List (PyVal × PyVal) :=
  [(.int 1, .str "CONTROL"), (.int 2, .str "ASD")]

/-- The recoding the source applies to one cell of the handedness
column: `data["HANDEDNESS_CATEGORY"].map(MAPPING["HANDEDNESS_CATEGORY"])`. -/
def handednessEncode (v : PyVal) : PyVal := seriesMap MAPPING_HANDEDNESS v

/-- Whether `v` matches some key of the handedness mapping table. -/
def isHandednessKey (v : PyVal) : Bool :=
  MAPPING_HANDEDNESS.any (fun kv => pyKeyEq kv.fst v)

/-- One cell of `fiq.where((fiq != -9999) & (~np.isnan(fiq)), 100)`:
keep the value where it is neither the `-9999` sentinel nor `NaN`,
replace it by `100` otherwise.  (A string cell would make `np.isnan`
raise in Python; the FIQ column is numeric, and no claim evaluates this
function on a string, so strings are passed through here.) -/
def imputeFIQ : PyVal → PyVal
  | .nan => .num 100
  | .num q => if q = -9999 then .num 100 else .num q
  | .int i => if i = -9999 then .num 100 else .int i
  | .str s => .str s

/-- Constant `SELECTED_PHENOTYPES` from `feature_extraction.py`. -/
def SELECTED_PHENOTYPES : List String :=
  ["SUB_ID", "SITE_ID", "SEX", "AGE_AT_SCAN", "FIQ",
   "HANDEDNESS_CATEGORY", "EYE_STATUS_AT_SCAN", "DX_GROUP"]

/-- The mutating middle of `process_phenotypic_data` (lines 85–96),
applied to the local copy of the input table: impute FIQ, then recode
the four categorical columns in the insertion order of `MAPPING`
(`SEX`, `HANDEDNESS_CATEGORY`, `EYE_STATUS_AT_SCAN`, `DX_GROUP`).
`astype("category")` changes only the dtype, not the values. -/
def processSteps (data : Table) : Table :=
  let data := setCol data "FIQ" ((getCol data "FIQ").map imputeFIQ)
  let data := setCol data "SEX" ((getCol data "SEX").map (seriesMap MAPPING_SEX))
  let data := setCol data "HANDEDNESS_CATEGORY"
      ((getCol data "HANDEDNESS_CATEGORY").map handednessEncode)
  let data := setCol data "EYE_STATUS_AT_SCAN"
      ((getCol data "EYE_STATUS_AT_SCAN").map (seriesMap MAPPING_EYE))
  setCol data "DX_GROUP" ((getCol data "DX_GROUP").map (seriesMap MAPPING_DX))

/-- The result of `data[SELECTED_PHENOTYPES].set_index("SUB_ID")`:
the subject-id index together with the remaining seven selected columns. -/
structure PTable where
  index : List PyVal
  cols : Table
  deriving DecidableEq, Repr

/-- Line 101 of `feature_extraction.py`: select the eight phenotype
columns and move `SUB_ID` to the index. -/
def processSelect (data : Table) : PTable :=
  { index := getCol data "SUB_ID"
    cols := (SELECTED_PHENOTYPES.drop 1).map (fun k => (k, getCol data k)) }

/-- Function `process_phenotypic_data` as a pure value-level function: the value
it returns in terms of the value of its argument. -/
def process_phenotypic_data (data : Table) : PTable :=
  processSelect (processSteps data)

/-- Function `process_phenotypic_data` in store-passing form, to make the
in-place–modification question expressible: DataFrame objects live in a
store (`List Table`) and the caller passes a reference (an index) into
it.  Line 81 (`data = data.copy()`) allocates a fresh object and rebinds
the local name `data` to it; every later column assignment of the body
writes through that local reference, i.e. to the copy.  The result is
the updated store together with the returned table value. -/
def process_phenotypic_data_store (store : List Table) (ref : ℕ) :
    List Table × PTable :=
  let orig := store.getD ref []
  let store1 := store ++ [orig]
  let dref := store.length
  let store2 := store1.set dref (processSteps (store1.getD dref []))
  (store2, processSelect (store2.getD dref []))

theorem getCol_setCol_same (t : Table) (k : String) (v : List PyVal) :
    getCol (setCol t k v) k = v := by
  induction t with
  | nil => simp [setCol, getCol]
  | cons hd tl ih =>
      obtain ⟨k', v'⟩ := hd
      by_cases h : k' = k <;> simp [setCol, getCol, h, ih]

theorem getCol_setCol_ne (t : Table) (k k' : String) (v : List PyVal)
    (h : k' ≠ k) : getCol (setCol t k' v) k = getCol t k := by
  induction t with
  | nil => simp [setCol, getCol, h]
  | cons hd tl ih =>
      obtain ⟨k0, v0⟩ := hd
      by_cases h0 : k0 = k'
      · subst h0; simp [setCol, getCol, h]
      · by_cases h1 : k0 = k <;> simp [setCol, getCol, h0, h1, ih, Ne.symm h]

/-- A 2-D numpy float array, as a list of rows of rationals. -/
abbrev Mat := List (List ℚ)

/-- Table `AVAILABLE_FC_MEASURES` from `feature_extraction.py`: the fixed
measure-name → nilearn-kind table. -/
def AVAILABLE_FC_MEASURES : List (String × String) :=
  [("pearson", "correlation"),
   ("partial", "partial correlation"),
   ("tangent", "tangent"),
   ("covariance", "covariance"),
   ("precision", "precision")]

/-- Lookup `AVAILABLE_FC_MEASURES.get(k)` (line 144): a *total* dictionary
lookup returning `none` on an unknown key — it never raises. -/
def fcLookup (k : String) : Option String :=
  (AVAILABLE_FC_MEASURES.find? (fun kv => kv.fst == k)).map (fun kv => kv.snd)

/-- A constructed `nilearn.connectome.ConnectivityMeasure(kind=...,
vectorize=..., discard_diagonal=...)` object.  Its constructor only
stores the parameters; any validation happens at fit time. -/
structure ConnectivityMeasure where
  kind : Option String
  vectorize : Bool
  discard_diagonal : Bool
  deriving DecidableEq, Repr

/-- The data flowing through the extraction chain: per-subject 2-D
arrays, or per-subject vectors after a vectorizing stage. -/
inductive FCData where
  | mats (ms : List Mat)
  | vecs (vs : List (List ℚ))
  deriving DecidableEq, Repr

/-- Helper for `symMatrixToVecDiscard`: row `i` of a matrix contributes
its first `i` entries (the part strictly left of the diagonal). -/
def symVecGo : ℕ → Mat → List ℚ
  | _, [] => []
  | i, row :: rest => row.take i ++ symVecGo (i + 1) rest

/-- nilearn's `sym_matrix_to_vec(m, discard_diagonal=True)`: the
strictly-lower-triangular entries of `m` in row-major order. -/
def symMatrixToVecDiscard (m : Mat) : List ℚ := symVecGo 0 m

/-- The error nilearn raises at fit time for an invalid `kind`
(`ConnectivityMeasure` rejects the kind only inside `fit`). -/
def nilearnKindError : String :=
  "ValueError: Allowed connectivity kinds are covariance, correlation, partial correlation, tangent, precision"

/-- The error nilearn raises at fit time when the subjects are not 2-D
time-series arrays (only reachable here if a vectorized result were fed
back into a further measure, which the source's flag discipline
prevents). -/
def nilearnShapeError : String :=
  "ValueError: Each subject must be a 2D array"

/-- The off-diagonal sqrt-2 scaling of `sym_matrix_to_vec` without
`discard_diagonal` is irrational, hence outside this rational
embedding; the source only ever constructs the two flags from the same
boolean `final`, so this configuration is unreachable from
`extract_functional_connectivity`. -/
def unmodelledVectorizeError : String :=
  "unmodelled: vectorize without discard_diagonal"

/-- Semantics of `measure.fit_transform(data)` for one constructed measure, with the
group-level covariance estimation abstracted as `est` (kind → list of
per-subject arrays → list of per-subject connectivity matrices).
An invalid (`None`) kind raises here, at fit time, not earlier. -/
def applyMeasure (est : String → List Mat → List Mat)
    (m : ConnectivityMeasure) : FCData → Except String FCData
  | .mats ms =>
      match m.kind with
      | none => .error nilearnKindError
      | some k =>
          let conn := est k ms
          match m.vectorize, m.discard_diagonal with
          | true, true => .ok (.vecs (conn.map symMatrixToVecDiscard))
          | true, false => .error unmodelledVectorizeError
          | false, _ => .ok (.mats conn)
  | .vecs _ => .error nilearnShapeError

/-- The sequence of `ConnectivityMeasure` objects constructed by the
loop `for i, k in enumerate(reversed(measures), 1)` of lines 143–152,
starting from counter value `i` with `n = len(measures)`:
each stage looks its name up with `.get` and sets
`vectorize = discard_diagonal = (i == n)`. -/
def stagesFrom (n : ℕ) : ℕ → List String → List ConnectivityMeasure
  | _, [] => []
  | i, k :: rest =>
      ⟨fcLookup k, i == n, i == n⟩ :: stagesFrom n (i + 1) rest

/-- The full list of measure objects constructed by
`extract_functional_connectivity`: the loop runs over
`reversed(measures)` with the counter starting at 1. -/
def stageMeasures (measures : List String) : List ConnectivityMeasure :=
  stagesFrom measures.length 1 measures.reverse

/-- Function `extract_functional_connectivity(data, measures)` (lines 143–158):
fold the constructed measures over the data, each stage's
`fit_transform` output feeding the next stage. -/
def extract_functional_connectivity (est : String → List Mat → List Mat)
    (measures : List String) (data : List Mat) : Except String FCData :=
  (stageMeasures measures).foldlM (fun d m => applyMeasure est m d) (.mats data)

/-- The chain described by the spec's words: the measures applied *in
the listed order*, each stage's output feeding the next stage's input,
with only the last stage of the list vectorizing and discarding the
diagonal. -/
def chainListedOrder (est : String → List Mat → List Mat) :
    List String → FCData → Except String FCData
  | [], d => .ok d
  | [m], d => applyMeasure est ⟨fcLookup m, true, true⟩ d
  | m :: rest, d =>
      (applyMeasure est ⟨fcLookup m, false, false⟩ d).bind
        (chainListedOrder est rest)

/-- A constructed scikit-learn cross-validation splitter object:
`LeavePGroupsOut(p)`, `RepeatedStratifiedKFold(n_splits, n_repeats,
random_state)`, or the `StratifiedKFold(5)` default that `check_cv`
substitutes for `cv=None`.  `LeavePGroupsOut` has no seed field at all:
its constructor takes only the group count. -/
inductive Splitter where
  | lpgo (n_groups : ℕ)
  | rskf (n_splits : ℕ) (n_repeats : ℕ) (random_state : Option ℕ)
  | stratifiedKFold (n_splits : ℕ)
  deriving DecidableEq, Repr

/-- The `InvalidParameterError` message sklearn's `validate_params`
raises for `create_splitter` when `split` is outside `StrOptions({skf,
lpgo})`. -/
def splitParamError : String :=
  "InvalidParameterError: the split parameter of create_splitter must be a str among skf and lpgo"

/-- Function `create_splitter` from `evaluation.py` (lines 24–77).  The
`validate_params` decorator checks its constraints before the body
runs; of the declared constraints only `split`, `random_state` and
`verbose` share a name with an actual parameter (the decorator declares
`n_splits`/`n_repeats` while the function's parameters are named
`num_folds`/`num_cv_repeats`, and sklearn skips constraint keys that
match no parameter), and `random_state`/`verbose` accept every value of
their embedded types, so the one operative check is the `split`
enumeration.  The body returns `LeavePGroupsOut(num_folds)` for
`"lpgo"` — the seed is not passed — and otherwise
`RepeatedStratifiedKFold` with the seed. -/
def create_splitter (split : String) (num_folds : ℕ) (num_cv_repeats : ℕ)
    (random_state : Option ℕ) : Except String Splitter :=
  if ¬(split = "skf" ∨ split = "lpgo") then .error splitParamError
  else if split = "lpgo" then .ok (.lpgo num_folds)
  else .ok (.rskf num_folds num_cv_repeats random_state)

/-- Constant `C = np.logspace(start=-5, stop=15, num=20 + 1, base=2)` from
`modeling.py`: the 21 powers of two from `2 ^ (-5)` to `2 ^ 15`. -/
def C : List ℚ := (List.range 21).map (fun i => (2 : ℚ) ^ ((i : ℤ) - 5))

/-- One entry of a hyperparameter grid: a list of candidate values of
one of the value shapes occurring in this repository's grids. -/
inductive GridVal where
  | qs (l : List ℚ)
  | optNats (l : List (Option ℕ))
  | strs (l : List String)
  | bools (l : List Bool)
  deriving DecidableEq, Repr

/-- A parameter grid: a Python dict from parameter name to candidate
values, embedded as an association list in insertion order. -/
abbrev ParamGrid := List (String × GridVal)

/-- Table `CLASSIFIER_GRID` from `modeling.py`, as the lookup
`CLASSIFIER_GRID[classifier]`: `C` for the two `C`-parameterized
classifiers and `1 / (2 * C)` as ridge's `alpha`.  The lookup is only
reached after `validate_params` has confirmed the classifier name, so
the catch-all case is unreachable. -/
def CLASSIFIER_GRID : String → ParamGrid
  | "logistic" => [("C", .qs C)]
  | "svm" => [("C", .qs C)]
  | "ridge" => [("alpha", .qs (C.map (fun c => 1 / (2 * c))))]
  | _ => []

/-- Table `MIDA_GRID` from `modeling.py` (lines 37–45): the
domain-adaptation hyperparameters, each key prefixed with
`domain_adapter__` by the final dict comprehension. -/
def MIDA_GRID : ParamGrid :=
  [("domain_adapter__num_components", .optNats [some 32, some 64, some 128, some 256, none]),
   ("domain_adapter__kernel", .strs ["linear", "rbf"]),
   ("domain_adapter__mu", .qs (C.map (fun c => 1 / (2 * c)))),
   ("domain_adapter__eta", .qs (C.map (fun c => 1 / (2 * c)))),
   ("domain_adapter__ignore_y", .bools [true, false]),
   ("domain_adapter__augment", .bools [true, false])]

/-- Write one key of a Python dict: replace the value at the key's
existing position, or append the pair when the key is new. -/
def setKey : ParamGrid → String × GridVal → ParamGrid
  | [], kv => [kv]
  | kv0 :: rest, kv =>
      if kv0.fst == kv.fst then kv :: rest else kv0 :: setKey rest kv

/-- Semantics of `d.update(e)` on Python dicts. -/
def dictUpdate (d e : ParamGrid) : ParamGrid := e.foldl setKey d

/-- The classifier estimator after `clone(CLASSIFIER[classifier])` and
`set_params(max_iter=..., random_state=...)` (lines 132–133): its
identity and the two parameters the factory sets on it. -/
structure ClassifierSpec where
  kind : String
  max_iter : ℕ
  random_state : Option ℕ
  deriving DecidableEq, Repr

/-- The `scoring` argument: a single metric name or a list of names
(`None` is represented by the surrounding `Option`). -/
inductive ScoringArg where
  | one (s : String)
  | many (l : List String)
  deriving DecidableEq, Repr

/-- Modelled from the spec: the sklearn scorer registry
`get_scorer_names()` used by the `scoring` constraint is external
library data; the spec fixes the metric-name set exposed by the CLI, so
the registry is modelled by that fixed set.  No claim exercises this
list. -/
def SCORER_NAMES : List String :=
  ["accuracy", "precision", "recall", "f1", "roc_auc", "matthews_corrcoef"]

/-- The `scoring` constraint of `create_trainer`'s `validate_params`:
a registered scorer name, any list, or `None`. -/
def validScoring : Option ScoringArg → Bool
  | none => true
  | some (.many _) => true
  | some (.one s) => SCORER_NAMES.contains s

/-- Expression `scoring[0] if isinstance(scoring, list) else scoring` (line 144).
Indexing an empty list raises `IndexError`. -/
def computeRefit : Option ScoringArg → Except String (Option String)
  | none => .ok none
  | some (.one s) => .ok (some s)
  | some (.many []) => .error "IndexError: list index out of range"
  | some (.many (s :: _)) => .ok (some s)

/-- Call `check_cv(cv, [0, 1], classifier=True)` (line 142): pass a supplied
splitter through unchanged, and substitute `StratifiedKFold(5)` for
`None` (the labels `[0, 1]` are discrete and `classifier=True`). -/
def checkCv : Option Splitter → Splitter
  | none => .stratifiedKFold 5
  | some s => s

/-- The `trainer_args` dict of lines 141–148, shared by all three
trainer variants.  `error_score` is the literal string `"raise"`. -/
structure TrainerArgs where
  cv : Splitter
  scoring : Option ScoringArg
  refit : Option String
  n_jobs : Option ℤ
  error_score : String
  verbose : ℕ
  deriving DecidableEq, Repr

/-- A constructed trainer object: `GridSearchCV`,
`RandomizedSearchCV`, or the `MIDATrainer` variant from `kale`. -/
inductive Trainer where
  | gridSearchCV (estimator : ClassifierSpec) (param_grid : ParamGrid)
      (args : TrainerArgs)
  | randomizedSearchCV (estimator : ClassifierSpec)
      (param_distributions : ParamGrid) (n_iter : ℕ)
      (random_state : Option ℕ) (args : TrainerArgs)
  | midaTrainer (estimator : ClassifierSpec) (param_grid : ParamGrid)
      (search_strategy : String) (num_iter : ℕ)
      (random_state : Option ℕ) (args : TrainerArgs)
  deriving DecidableEq, Repr

/-- The `error_score` setting of a trainer, whichever variant it is. -/
def Trainer.errorScore : Trainer → String
  | .gridSearchCV _ _ args => args.error_score
  | .randomizedSearchCV _ _ _ _ args => args.error_score
  | .midaTrainer _ _ _ _ _ args => args.error_score

/-- The hyperparameter grid of a trainer (`param_grid` of the grid and
MIDA variants, `param_distributions` of the randomized variant). -/
def Trainer.paramGrid : Trainer → ParamGrid
  | .gridSearchCV _ g _ => g
  | .randomizedSearchCV _ g _ _ _ => g
  | .midaTrainer _ g _ _ _ _ => g

/-- Whether a trainer is the specialized MIDA variant. -/
def Trainer.isMida : Trainer → Bool
  | .midaTrainer _ _ _ _ _ _ => true
  | _ => false

/-- The `InvalidParameterError` message for an out-of-enum
`classifier`. -/
def classifierParamError : String :=
  "InvalidParameterError: the classifier parameter of create_trainer must be a str among logistic, svm and ridge"

/-- The `InvalidParameterError` message for an out-of-enum
`search_strategy`. -/
def searchStrategyParamError : String :=
  "InvalidParameterError: the search_strategy parameter of create_trainer must be a str among grid and random"

/-- The `InvalidParameterError` message for an unregistered single
`scoring` name. -/
def scoringParamError : String :=
  "InvalidParameterError: the scoring parameter of create_trainer must be a registered scorer name, a list or None"

/-- The `InvalidParameterError` message for `num_solver_iterations`
outside `Interval(Integral, 1, None)`. -/
def numSolverItersParamError : String :=
  "InvalidParameterError: the num_solver_iterations parameter of create_trainer must be an int at least 1"

/-- The `InvalidParameterError` message for `num_search_iterations`
outside `Interval(Integral, 1, None)`. -/
def numSearchItersParamError : String :=
  "InvalidParameterError: the num_search_iterations parameter of create_trainer must be an int at least 1"

/-- Function `create_trainer` from `modeling.py` (lines 63–172).  The
`validate_params` decorator checks the declared constraints, in
parameter order, before the body runs (`mida`, `cv`, `num_jobs`,
`random_state` and `verbose` accept every value of their embedded
types).  The body clones the chosen classifier and its grid, extends
the grid with `MIDA_GRID` when `mida` is set, builds the shared
`trainer_args` (with `error_score="raise"`), and returns the
`MIDATrainer` variant when `mida` is set, else `GridSearchCV` or
`RandomizedSearchCV` according to `search_strategy`. -/
def create_trainer (classifier : String) (mida : Bool)
    (search_strategy : String) (cv : Option Splitter)
    (scoring : Option ScoringArg) (num_solver_iterations : ℕ)
    (num_search_iterations : ℕ) (num_jobs : Option ℤ)
    (random_state : Option ℕ) (verbose : ℕ) : Except String Trainer :=
  if ¬(classifier = "logistic" ∨ classifier = "svm" ∨ classifier = "ridge") then
    .error classifierParamError
  else if ¬(search_strategy = "grid" ∨ search_strategy = "random") then
    .error searchStrategyParamError
  else if validScoring scoring = false then
    .error scoringParamError
  else if num_solver_iterations < 1 then
    .error numSolverItersParamError
  else if num_search_iterations < 1 then
    .error numSearchItersParamError
  else
    let clf : ClassifierSpec :=
      { kind := classifier, max_iter := num_solver_iterations,
        random_state := random_state }
    let param_grid := CLASSIFIER_GRID classifier
    let param_grid := if mida then dictUpdate param_grid MIDA_GRID else param_grid
    match computeRefit scoring with
    | .error e => .error e
    | .ok refit =>
        let args : TrainerArgs :=
          { cv := checkCv cv, scoring := scoring, refit := refit,
            n_jobs := num_jobs, error_score := "raise", verbose := verbose }
        if mida then
          .ok (.midaTrainer clf param_grid search_strategy
                num_search_iterations random_state args)
        else if search_strategy = "grid" then
          .ok (.gridSearchCV clf param_grid args)
        else
          .ok (.randomizedSearchCV clf param_grid num_search_iterations
                random_state args)

/-- Claim C5: `create_splitter` with `split="lpgo"` returns the same
seed-free `LeavePGroupsOut(num_folds)` splitter for every supplied
random seed (so any two seeds yield the same splitter, hence the same
partitioning for fixed group labels), while with `split="skf"` the
returned `RepeatedStratifiedKFold` carries the supplied seed verbatim
(so differing seeds yield differing splitter configurations, which is
what drives sklearn's differing repeat orderings). -/
theorem create_splitter_seed_use (num_folds num_cv_repeats : ℕ)
    (random_state : Option ℕ) :
    create_splitter "lpgo" num_folds num_cv_repeats random_state =
      .ok (.lpgo num_folds) ∧
    create_splitter "skf" num_folds num_cv_repeats random_state =
      .ok (.rskf num_folds num_cv_repeats random_state) := by
  constructor <;> rfl

/-- Claim C7: an out-of-enum `classifier` or `search_strategy` makes
`create_trainer` return the matching configuration error immediately
(no trainer is constructed), and an out-of-enum `split` does the same
for `create_splitter`; the checks run before anything else, in
declaration order, mirroring sklearn's `validate_params` decorator. -/
theorem factories_reject_out_of_enum (classifier search_strategy split : String)
    (mida : Bool) (cv : Option Splitter) (scoring : Option ScoringArg)
    (nso nse : ℕ) (nj : Option ℤ) (rs : Option ℕ) (v : ℕ)
    (num_folds num_cv_repeats : ℕ) (s : Option ℕ) :
    (¬(classifier = "logistic" ∨ classifier = "svm" ∨ classifier = "ridge") →
      create_trainer classifier mida search_strategy cv scoring nso nse nj rs v =
        .error classifierParamError) ∧
    ((classifier = "logistic" ∨ classifier = "svm" ∨ classifier = "ridge") →
      ¬(search_strategy = "grid" ∨ search_strategy = "random") →
      create_trainer classifier mida search_strategy cv scoring nso nse nj rs v =
        .error searchStrategyParamError) ∧
    (¬(split = "skf" ∨ split = "lpgo") →
      create_splitter split num_folds num_cv_repeats s = .error splitParamError) := by
  refine ⟨fun h => ?_, fun h1 h2 => ?_, fun h => ?_⟩
  · simp [create_trainer, h]
  · simp [create_trainer, h1, h2]
  · simp [create_splitter, h]

/-- Concrete instance of `factories_reject_out_of_enum`: a made-up
classifier, search strategy and split each produce the corresponding
configuration error. -/
theorem factories_reject_out_of_enum_witness :
    create_trainer "forest" false "grid" none none 1 1 none none 0 =
      .error classifierParamError ∧
    create_trainer "logistic" false "anneal" none none 1 1 none none 0 =
      .error searchStrategyParamError ∧
    create_splitter "holdout" 5 1 none = .error splitParamError := by
  refine ⟨?_, ?_, ?_⟩
  · exact (factories_reject_out_of_enum "forest" "grid" "skf" false none none
      1 1 none none 0 5 1 none).1 (by decide)
  · exact (factories_reject_out_of_enum "logistic" "anneal" "skf" false none none
      1 1 none none 0 5 1 none).2.1 (by decide) (by decide)
  · exact (factories_reject_out_of_enum "logistic" "grid" "holdout" false none none
      1 1 none none 0 5 1 none).2.2 (by decide)

/-- Claim C8: every trainer `create_trainer` successfully returns —
grid search, randomized search, or the MIDA variant — carries
`error_score = "raise"`, so a per-candidate evaluation failure during
fitting aborts the whole search instead of being scored and skipped. -/
theorem trainer_error_score_raise (classifier : String) (mida : Bool)
    (search_strategy : String) (cv : Option Splitter)
    (scoring : Option ScoringArg) (nso nse : ℕ) (nj : Option ℤ)
    (rs : Option ℕ) (v : ℕ) (t : Trainer)
    (h : create_trainer classifier mida search_strategy cv scoring nso nse nj rs v =
      .ok t) : t.errorScore = "raise" := by
  unfold create_trainer at h
  split_ifs at h <;>
    first
      | exact Except.noConfusion h
      | (cases hr : computeRefit scoring with
         | error e => rw [hr] at h; exact Except.noConfusion h
         | ok refit =>
             rw [hr] at h
             injection h with h2
             subst h2
             rfl)

/-- The trainer built from a default `e`, used to state closed
instances of theorems whose hypothesis is a successful
`create_trainer` call. -/
def trainerOrDefault (e : Except String Trainer) : Trainer :=
  match e with
  | .ok t => t
  | .error _ =>
      .gridSearchCV { kind := "logistic", max_iter := 1, random_state := none } []
        { cv := .stratifiedKFold 5, scoring := none, refit := none,
          n_jobs := none, error_score := "raise", verbose := 0 }

/-- Concrete instance of `trainer_error_score_raise` at a successfully
constructed grid-search trainer. -/
theorem trainer_error_score_raise_witness :
    (trainerOrDefault
      (create_trainer "logistic" false "grid" none none 1 1 none none 0)).errorScore =
      "raise" :=
  trainer_error_score_raise "logistic" false "grid" none none 1 1 none none 0 _ rfl

/-- Claim C9: with the domain-adaptation flag set, `create_trainer`
returns the MIDA trainer variant whose grid is the classifier's grid
extended (by dict update, which here is plain concatenation since the
key sets are disjoint) with exactly the six `domain_adapter__`-prefixed
hyperparameters: component count, kernel choice, the two regularization
weights `mu` and `eta`, and the two boolean toggles `ignore_y` and
`augment`; with the flag unset the returned trainer is not the MIDA
variant and its grid holds only the classifier's single
hyperparameter. -/
theorem trainer_mida_grid (classifier search_strategy : String)
    (cv : Option Splitter) (scoring : Option ScoringArg) (nso nse : ℕ)
    (nj : Option ℤ) (rs : Option ℕ) (v : ℕ) (t t' : Trainer) :
    (create_trainer classifier true search_strategy cv scoring nso nse nj rs v =
        .ok t →
      t.isMida = true ∧
      t.paramGrid = CLASSIFIER_GRID classifier ++ MIDA_GRID ∧
      t.paramGrid.map Prod.fst =
        (CLASSIFIER_GRID classifier).map Prod.fst ++
          ["domain_adapter__num_components", "domain_adapter__kernel",
           "domain_adapter__mu", "domain_adapter__eta",
           "domain_adapter__ignore_y", "domain_adapter__augment"]) ∧
    (create_trainer classifier false search_strategy cv scoring nso nse nj rs v =
        .ok t' →
      t'.isMida = false ∧
      t'.paramGrid = CLASSIFIER_GRID classifier ∧
      (t'.paramGrid.map Prod.fst).length = 1) := by
  constructor
  · intro h
    unfold create_trainer at h
    split_ifs at h with h1 h2 h3 h4 h5 h6 h7 <;>
      first
        | exact Except.noConfusion h
        | exact absurd rfl (by assumption)
        | exact (by assumption : False).elim
        | (cases hr : computeRefit scoring with
           | error e => rw [hr] at h; exact Except.noConfusion h
           | ok refit =>
               rw [hr] at h
               injection h with hinj
               subst hinj
               rcases h1 with rfl | rfl | rfl <;> exact ⟨rfl, rfl, rfl⟩)
  · intro h
    unfold create_trainer at h
    split_ifs at h with h1 h2 h3 h4 h5 h6 h7 <;>
      first
        | exact Except.noConfusion h
        | exact absurd rfl (by assumption)
        | exact (by assumption : False).elim
        | (cases hr : computeRefit scoring with
           | error e => rw [hr] at h; exact Except.noConfusion h
           | ok refit =>
               rw [hr] at h
               injection h with hinj
               subst hinj
               rcases h1 with rfl | rfl | rfl <;> exact ⟨rfl, rfl, rfl⟩)

/-- Concrete instance of `trainer_mida_grid`: the ridge classifier's
grid with and without the MIDA extension. -/
theorem trainer_mida_grid_witness :
    (trainerOrDefault
      (create_trainer "ridge" true "grid" none none 1 1 none none 0)).paramGrid =
      CLASSIFIER_GRID "ridge" ++ MIDA_GRID ∧
    (trainerOrDefault
      (create_trainer "ridge" false "grid" none none 1 1 none none 0)).paramGrid =
      CLASSIFIER_GRID "ridge" := by
  have h := trainer_mida_grid "ridge" "grid" none none 1 1 none none 0
    (trainerOrDefault (create_trainer "ridge" true "grid" none none 1 1 none none 0))
    (trainerOrDefault (create_trainer "ridge" false "grid" none none 1 1 none none 0))
  exact ⟨(h.1 rfl).2.1, (h.2 rfl).2.1⟩

theorem listSet_append_singleton (h : List Table) (a x : Table) :
    (h ++ [a]).set h.length x = h ++ [x] := by
  induction h with
  | nil => rfl
  | cons hd tl ih => simp [List.set, ih]

theorem listGetD_append_len (h : List Table) (a : Table) :
    (h ++ [a]).getD h.length [] = a := by
  induction h with
  | nil => rfl
  | cons hd tl ih =>
      simp only [List.cons_append, List.length_cons, List.getD_cons_succ]
      exact ih

/-- Claim C10: in store-passing form, `process_phenotypic_data` leaves
the caller's store untouched and only appends the fresh copy it
mutates: the final store is the original store plus one processed copy,
so the caller's table (at `ref`, or at any other reference) holds the
same values after the call as before; the returned table is the pure
function of the input value. -/
theorem process_phenotypic_data_no_mutation (store : List Table) (ref : ℕ) :
    (process_phenotypic_data_store store ref).1 =
      store ++ [processSteps (store.getD ref [])] ∧
    (process_phenotypic_data_store store ref).2 =
      process_phenotypic_data (store.getD ref []) := by
  simp [process_phenotypic_data_store, process_phenotypic_data,
    listGetD_append_len, listSet_append_singleton]

theorem getCol_processSteps_fiq (t : Table) :
    getCol (processSteps t) "FIQ" = (getCol t "FIQ").map imputeFIQ := by
  unfold processSteps
  rw [getCol_setCol_ne _ _ _ _ (by decide), getCol_setCol_ne _ _ _ _ (by decide),
    getCol_setCol_ne _ _ _ _ (by decide), getCol_setCol_ne _ _ _ _ (by decide),
    getCol_setCol_same]

theorem getCol_processSteps_handedness (t : Table) :
    getCol (processSteps t) "HANDEDNESS_CATEGORY" =
      (getCol t "HANDEDNESS_CATEGORY").map handednessEncode := by
  unfold processSteps
  rw [getCol_setCol_ne _ _ _ _ (by decide), getCol_setCol_ne _ _ _ _ (by decide),
    getCol_setCol_same, getCol_setCol_ne _ _ _ _ (by decide),
    getCol_setCol_ne _ _ _ _ (by decide)]

theorem getCol_processSelect (d : Table) (k : String) (hk : k ∈ SELECTED_PHENOTYPES.drop 1) :
    getCol (processSelect d).cols k = getCol d k := by
  fin_cases hk <;> rfl

/-- Claim C4: `process_phenotypic_data` maps the FIQ column cellwise by
the imputation of line 86; that imputation sends missing values and the
`-9999` sentinel to `100` and leaves every other numeric value
unchanged. -/
theorem process_fiq_imputation (t : Table) :
    getCol (process_phenotypic_data t).cols "FIQ" =
      (getCol t "FIQ").map imputeFIQ ∧
    imputeFIQ .nan = .num 100 ∧
    (∀ q : ℚ, q = -9999 → imputeFIQ (.num q) = .num 100) ∧
    (∀ q : ℚ, q ≠ -9999 → imputeFIQ (.num q) = .num q) := by
  refine ⟨?_, rfl, ?_, ?_⟩
  · rw [process_phenotypic_data, getCol_processSelect _ _ (by decide),
      getCol_processSteps_fiq]
  · intro q hq; simp [imputeFIQ, hq]
  · intro q hq; simp [imputeFIQ, hq]

/-- Concrete instance of `process_fiq_imputation`: the sentinel is
replaced by 100 and an ordinary score passes through unchanged. -/
theorem process_fiq_imputation_witness :
    imputeFIQ (.num (-9999)) = .num 100 ∧ imputeFIQ (.num 85) = .num 85 :=
  ⟨(process_fiq_imputation []).2.2.1 (-9999) rfl,
   (process_fiq_imputation []).2.2.2 85 (by norm_num)⟩

/-- A one-subject phenotype table whose handedness cell holds the
unrecognized raw value `"X"`. -/
def tableUnrecognizedHand : Table :=
  [("SUB_ID", [.int 50003]), ("SITE_ID", [.str "NYU"]), ("SEX", [.int 1]),
   ("AGE_AT_SCAN", [.num 10]), ("FIQ", [.num 110]),
   ("HANDEDNESS_CATEGORY", [.str "X"]), ("EYE_STATUS_AT_SCAN", [.int 1]),
   ("DX_GROUP", [.int 2])]

/-- Counterexample to claim C2 as stated: on the raw handedness value
`"X"` — unrecognized, i.e. matching no key of the mapping table —
`process_phenotypic_data` outputs a missing value (`NaN`), because
`pandas.Series.map` sends non-keys to `NaN`; the output is not the
claimed default `LEFT` and is outside the three canonical labels. -/
theorem handedness_unrecognized_not_left :
    getCol (process_phenotypic_data tableUnrecognizedHand).cols
      "HANDEDNESS_CATEGORY" = [.nan] ∧
    PyVal.nan ≠ .str "LEFT" ∧ PyVal.nan ≠ .str "RIGHT" ∧
    PyVal.nan ≠ .str "AMBIDEXTROUS" := by
  exact ⟨rfl, by decide, by decide, by decide⟩

/-- Claim C2, amended: `process_phenotypic_data` recodes the handedness
column cellwise by the mapping table: `L` to `LEFT`, `R` to `RIGHT`,
each of `Mixed`, `Ambi`, `L->R`, `R->L` to `AMBIDEXTROUS`, and the two
missing-value encodings — `NaN` and the sentinel string `-9999` — to
`LEFT`; but a raw value matching *no* key of the table maps to missing
(`NaN`), outside the three canonical labels, rather than defaulting to
`LEFT`. -/
theorem handedness_recoding (t : Table) :
    getCol (process_phenotypic_data t).cols "HANDEDNESS_CATEGORY" =
      (getCol t "HANDEDNESS_CATEGORY").map handednessEncode ∧
    handednessEncode (.str "L") = .str "LEFT" ∧
    handednessEncode (.str "R") = .str "RIGHT" ∧
    handednessEncode (.str "Mixed") = .str "AMBIDEXTROUS" ∧
    handednessEncode (.str "Ambi") = .str "AMBIDEXTROUS" ∧
    handednessEncode (.str "L->R") = .str "AMBIDEXTROUS" ∧
    handednessEncode (.str "R->L") = .str "AMBIDEXTROUS" ∧
    handednessEncode (.str "-9999") = .str "LEFT" ∧
    handednessEncode .nan = .str "LEFT" ∧
    (∀ v : PyVal, isHandednessKey v = false → handednessEncode v = .nan) := by
  refine ⟨?_, rfl, rfl, rfl, rfl, rfl, rfl, rfl, rfl, ?_⟩
  · rw [process_phenotypic_data, getCol_processSelect _ _ (by decide),
      getCol_processSteps_handedness]
  · intro v hv
    have hfind : MAPPING_HANDEDNESS.find? (fun kv => pyKeyEq kv.fst v) = none := by
      rw [List.find?_eq_none]
      intro kv hkv
      rw [isHandednessKey, List.any_eq_false] at hv
      simp [hv kv hkv]
    simp [handednessEncode, seriesMap, hfind]

/-- Concrete instance of `handedness_recoding`: a missing raw value is
recoded to `LEFT` while an unrecognized one is recoded to missing. -/
theorem handedness_recoding_witness :
    handednessEncode .nan = .str "LEFT" ∧
    handednessEncode (.str "Unknown") = .nan := by
  have h := handedness_recoding []
  exact ⟨h.2.2.2.2.2.2.2.2.1,
    h.2.2.2.2.2.2.2.2.2 (.str "Unknown") (by decide)⟩

theorem foldlM_stagesFrom_eq_chain (est : String → List Mat → List Mat)
    (l : List String) : ∀ (i n : ℕ) (d : FCData), i + l.length = n + 1 →
    (stagesFrom n i l).foldlM (fun d m => applyMeasure est m d) d =
      chainListedOrder est l d := by
  induction l with
  | nil => intro i n d _; rfl
  | cons k rest ih =>
      intro i n d h
      cases rest with
      | nil =>
          have hin : i = n := by simp at h; omega
          subst hin
          simp only [stagesFrom, List.foldlM_cons, List.foldlM_nil,
            chainListedOrder, beq_self_eq_true]
          exact bind_pure _
      | cons k2 rest2 =>
          have hin : i ≠ n := by simp at h; omega
          have hbeq : (i == n) = false := beq_eq_false_iff_ne.mpr hin
          simp only [stagesFrom, List.foldlM_cons, chainListedOrder, hbeq]
          cases hap : applyMeasure est ⟨fcLookup k, false, false⟩ d with
          | error e => rfl
          | ok d' => exact ih (i + 1) n d' (by simp at h ⊢; omega)

/-- Claim C1, amended: `extract_functional_connectivity` applies the
measures as a chain in *reverse* of the listed order (the loop runs
over `reversed(measures)`, so the last listed measure is applied
first); each stage's output feeds the next stage's input, and only the
final applied stage — which corresponds to the *first* listed measure —
vectorizes its output and discards the diagonal, every earlier stage
outputting a full matrix.  Formally: the extraction equals the
spec-style listed-order chain run on the reversed measure list. -/
theorem extract_is_reverse_listed_chain (est : String → List Mat → List Mat)
    (measures : List String) (data : List Mat) :
    extract_functional_connectivity est measures data =
      chainListedOrder est measures.reverse (.mats data) := by
  unfold extract_functional_connectivity stageMeasures
  rw [show measures.length = measures.reverse.length from
    (List.length_reverse measures).symm]
  exact foldlM_stagesFrom_eq_chain est measures.reverse 1 measures.reverse.length
    (.mats data) (by omega)

/-- A connectivity estimator whose output matrix encodes which kind was
requested: used to observe the order in which the stages run. -/
def estKindTag : String → List Mat → List Mat :=
  fun k ms =>
    ms.map (fun _ => if k == "correlation" then [[0, 0], [1, 0]] else [[0, 0], [2, 0]])

/-- A one-subject time-series collection (2 timepoints, 2 regions). -/
def dataTwoROI : List Mat := [[[1, 2], [3, 4]]]

/-- Counterexample to claim C1 as stated: with the measure list
`["pearson", "covariance"]`, the code applies `covariance` first and
vectorizes the `pearson` stage (yielding the tagged value 1), whereas
the claimed listed-order chain would apply `pearson` first and
vectorize the `covariance` stage (yielding the tagged value 2) — the
two runs produce different outputs, so the measures are not applied in
the listed order. -/
theorem extract_order_counterexample :
    extract_functional_connectivity estKindTag ["pearson", "covariance"]
      dataTwoROI = .ok (.vecs [[1]]) ∧
    chainListedOrder estKindTag ["pearson", "covariance"] (.mats dataTwoROI) =
      .ok (.vecs [[2]]) ∧
    FCData.vecs [[(1 : ℚ)]] ≠ FCData.vecs [[(2 : ℚ)]] :=
  ⟨rfl, rfl, by decide⟩

/-- Whether an embedded Python computation completed without raising. -/
def exceptOk : Except String FCData → Bool
  | .ok _ => true
  | .error _ => false

/-- Counterexample to claim C3 as stated: for the out-of-set measure
name `"spearman"` the lookup `AVAILABLE_FC_MEASURES.get` does *not*
raise — it completes and returns `None`, and that value is passed on
into the constructed `ConnectivityMeasure(kind=None, ...)` stage; the
failure `extract_functional_connectivity` then reports is nilearn's
*fit-time* invalid-kind error, not an invalid-lookup error. -/
theorem fc_lookup_unknown_counterexample :
    fcLookup "spearman" = none ∧
    stageMeasures ["spearman"] =
      [{ kind := none, vectorize := true, discard_diagonal := true }] ∧
    extract_functional_connectivity estKindTag ["spearman"] dataTwoROI =
      .error nilearnKindError :=
  ⟨rfl, rfl, rfl⟩

theorem stagesFrom_mem_none (m : String) (hm : fcLookup m = none) :
    ∀ (l : List String) (n i : ℕ), m ∈ l →
    ∃ cm ∈ stagesFrom n i l, cm.kind = none := by
  intro l
  induction l with
  | nil => intro n i hmem; exact absurd hmem (List.not_mem_nil m)
  | cons k rest ih =>
      intro n i hmem
      rcases List.mem_cons.mp hmem with rfl | hmem2
      · exact ⟨⟨fcLookup m, i == n, i == n⟩,
          List.mem_cons_self _ _, hm⟩
      · obtain ⟨cm, hcm, hk⟩ := ih n (i + 1) hmem2
        exact ⟨cm, List.mem_cons_of_mem _ hcm, hk⟩

theorem fold_stage_none_fails (est : String → List Mat → List Mat)
    (ms : List ConnectivityMeasure) :
    ∀ d : FCData, (∃ cm ∈ ms, cm.kind = none) →
    exceptOk (ms.foldlM (fun d m => applyMeasure est m d) d) = false := by
  induction ms with
  | nil =>
      intro d h
      obtain ⟨cm, hcm, _⟩ := h
      exact absurd hcm (List.not_mem_nil cm)
  | cons m0 rest ih =>
      intro d h
      rw [List.foldlM_cons]
      cases hap : applyMeasure est m0 d with
      | error e => rfl
      | ok d' =>
          obtain ⟨cm, hcm, hk⟩ := h
          rcases List.mem_cons.mp hcm with rfl | hmem
          · exfalso
            cases d with
            | mats ms2 => rw [applyMeasure, hk] at hap; exact Except.noConfusion hap
            | vecs vs => rw [applyMeasure] at hap; exact Except.noConfusion hap
          · exact ih d' ⟨cm, hmem, hk⟩

/-- Claim C3, amended: calling `extract_functional_connectivity` with a
measure name outside the fixed set is still fatal — the run never
completes successfully — but not at the lookup: the `.get` lookup
returns `None`, which is passed on into a constructed measure object,
and the failure is raised later, inside `fit_transform` of that stage,
when nilearn rejects the invalid kind. -/
theorem extract_unknown_measure_fails (est : String → List Mat → List Mat)
    (measures : List String) (data : List Mat) (m : String)
    (hmem : m ∈ measures) (hm : fcLookup m = none) :
    (∃ cm ∈ stageMeasures measures, cm.kind = none) ∧
    exceptOk (extract_functional_connectivity est measures data) = false := by
  have hmem' : m ∈ measures.reverse := List.mem_reverse.mpr hmem
  obtain ⟨cm, h1, h2⟩ :=
    stagesFrom_mem_none m hm measures.reverse measures.length 1 hmem'
  exact ⟨⟨cm, h1, h2⟩, fold_stage_none_fails est _ _ ⟨cm, h1, h2⟩⟩

/-- Concrete instance of `extract_unknown_measure_fails` at the unknown
measure name `"spearman"`. -/
theorem extract_unknown_measure_fails_witness :
    (∃ cm ∈ stageMeasures ["spearman"], cm.kind = none) ∧
    exceptOk (extract_functional_connectivity estKindTag ["spearman"]
      dataTwoROI) = false :=
  extract_unknown_measure_fails estKindTag ["spearman"] dataTwoROI "spearman"
    (by decide) (by decide)

theorem symVecGo_length (n : ℕ) :
    ∀ (m : Mat) (i : ℕ), (∀ row ∈ m, row.length = n) → i + m.length ≤ n →
    2 * (symVecGo i m).length + m.length =
      m.length * m.length + 2 * i * m.length := by
  intro m
  induction m with
  | nil => intro i _ _; simp [symVecGo]
  | cons row rest ih =>
      intro i hrow hle
      have hr : row.length = n := hrow row (List.mem_cons_self _ _)
      have hlen : rest.length + 1 = (row :: rest).length := by simp
      have htake : (row.take i).length = i := by
        rw [List.length_take]
        simp at hle
        omega
      have ihh := ih (i + 1)
        (fun r hrr => hrow r (List.mem_cons_of_mem _ hrr))
        (by simp at hle ⊢; omega)
      simp only [symVecGo, List.length_append, htake, List.length_cons]
      have hx : (rest.length + 1) * (rest.length + 1) =
          rest.length * rest.length + rest.length + (rest.length + 1) := by ring
      have hy : 2 * i * (rest.length + 1) = 2 * (i * rest.length) + 2 * i := by
        ring
      have hz : 2 * (i + 1) * rest.length =
          2 * (i * rest.length) + 2 * rest.length := by ring
      rw [hz] at ihh
      rw [hx, hy]
      omega

theorem symMatrixToVecDiscard_length (m : Mat) (n : ℕ)
    (hrows : m.length = n) (hrow : ∀ row ∈ m, row.length = n) :
    (symMatrixToVecDiscard m).length = n * (n - 1) / 2 := by
  have h := symVecGo_length n m 0 hrow (by simp [hrows])
  rw [hrows] at h
  unfold symMatrixToVecDiscard
  cases n with
  | zero => simp at h ⊢; exact h
  | succ p =>
      have hx : (p + 1) * (p + 1) = (p + 1) * p + (p + 1) := by ring
      rw [hx] at h
      have hy : (p + 1) * (p + 1 - 1) = (p + 1) * p := by simp
      rw [hy]
      omega

/-- Claim C6: for a single recognized measure, the extraction returns
one vector per subject (assuming the external estimator's documented
contract: one `n × n` connectivity matrix per input subject), and each
vector has length exactly `n * (n - 1) / 2` — the strictly-lower
triangle of an `n × n` matrix after the diagonal is discarded. -/
theorem extract_single_measure_length (est : String → List Mat → List Mat)
    (m k : String) (data : List Mat) (n : ℕ)
    (hm : fcLookup m = some k)
    (hcount : (est k data).length = data.length)
    (hshape : ∀ M ∈ est k data, M.length = n ∧ ∀ row ∈ M, row.length = n) :
    extract_functional_connectivity est [m] data =
      .ok (.vecs ((est k data).map symMatrixToVecDiscard)) ∧
    ((est k data).map symMatrixToVecDiscard).length = data.length ∧
    ∀ v ∈ (est k data).map symMatrixToVecDiscard,
      v.length = n * (n - 1) / 2 := by
  refine ⟨?_, ?_, ?_⟩
  · have hstage : stageMeasures [m] =
        [{ kind := fcLookup m, vectorize := true, discard_diagonal := true }] := by
      simp [stageMeasures, stagesFrom]
    unfold extract_functional_connectivity
    rw [hstage]
    simp only [List.foldlM_cons, List.foldlM_nil]
    rw [hm]
    rfl
  · rw [List.length_map, hcount]
  · intro v hv
    obtain ⟨M, hM, rfl⟩ := List.mem_map.mp hv
    exact symMatrixToVecDiscard_length M n (hshape M hM).1 (hshape M hM).2

/-- A concrete two-region estimator instance satisfying the shape
contract, for witnessing `extract_single_measure_length`. -/
def estTwoByTwo : String → List Mat → List Mat :=
  fun _ ms => ms.map (fun _ => [[1, 0], [0, 1]])

/-- A one-subject time-series collection with 3 timepoints, 2 regions. -/
def dataThreeByTwo : List Mat := [[[1, 2], [3, 4], [5, 6]]]

/-- Concrete instance of `extract_single_measure_length`: one subject,
two regions, measure `"pearson"`; the output is one vector of length
`2 * (2 - 1) / 2 = 1`. -/
theorem extract_single_measure_length_witness :
    extract_functional_connectivity estTwoByTwo ["pearson"] dataThreeByTwo =
      .ok (.vecs [[0]]) ∧
    [[(0 : ℚ)]].length = dataThreeByTwo.length ∧
    [(0 : ℚ)].length = 2 * (2 - 1) / 2 := by
  have h := extract_single_measure_length estTwoByTwo "pearson" "correlation"
    dataThreeByTwo 2 (by decide) (by decide) (by decide)
  exact ⟨h.1, h.2.1, h.2.2 [(0 : ℚ)] (by decide)⟩
